import Mathlib

/-!
Verification of the mirroring engine of `advanced_downloader.py`
(website_downloader repository).

The Python code is shallowly embedded: URLs, mirror paths and crawl state
become explicit data, the `requests`/filesystem/HTML-parser collaborators
become oracles or explicit parameters, and every function that a claim
touches is translated statement by statement from the source.  All
definitions are executable; concrete runs are settled with `decide`/`rfl`.
-/

namespace WD

/-! ### Character and string helpers (Python `str` primitives) -/

def quoteCh : Char := Char.ofNat 34

def apostCh : Char := Char.ofNat 39

def isSpaceCh (c : Char) : Bool :=
  c = ' ' || c = Char.ofNat 9 || c = Char.ofNat 10 || c = Char.ofNat 13 ||
  c = Char.ofNat 11 || c = Char.ofNat 12

/-- Python `str.strip()` on a character list. -/
def stripCh (l : List Char) : List Char :=
  ((l.dropWhile isSpaceCh).reverse.dropWhile isSpaceCh).reverse

/-- Worker of `wsTokens`, carrying the reversed current token. -/
def wsTokensGo (cur : List Char) : List Char → List (List Char)
  | [] => if cur.isEmpty then [] else [cur.reverse]
  | c :: rest =>
    if isSpaceCh c then
      if cur.isEmpty then wsTokensGo [] rest else cur.reverse :: wsTokensGo [] rest
    else wsTokensGo (c :: cur) rest

/-- Python `str.split()` (split on runs of whitespace, no empty tokens). -/
def wsTokens (l : List Char) : List (List Char) := wsTokensGo [] l

/-- Python `str.split(sep)` for a one-character separator: always returns
at least one (possibly empty) piece. -/
def splitOnCh (sep : Char) : List Char → List (List Char)
  | [] => [[]]
  | c :: rest =>
    if c = sep then [] :: splitOnCh sep rest
    else
      match splitOnCh sep rest with
      | [] => [[c]]
      | p :: ps => (c :: p) :: ps

def containsCh (c : Char) (s : String) : Bool := s.data.contains c

def toLowerStr (s : String) : String := String.mk (s.data.map Char.toLower)

/-- Python `str.startswith` as a character-list test. -/
def startsWithCh : List Char → List Char → Bool
  | [], _ => true
  | _ :: _, [] => false
  | p :: ps, c :: cs => p = c && startsWithCh ps cs

def startsWithStr (s pre : String) : Bool := startsWithCh pre.data s.data

def endsWithStr (s suf : String) : Bool := startsWithCh suf.data.reverse s.data.reverse

def endsWithCh (s : String) (c : Char) : Bool :=
  match s.data.reverse with
  | [] => false
  | x :: _ => x = c

/-- Python `str.rstrip(ch)`: remove every trailing occurrence of `ch`. -/
def rstripAllCh (ch : Char) (l : List Char) : List Char :=
  (l.reverse.dropWhile (· = ch)).reverse

/-- Python `str.lstrip(ch)`: remove every leading occurrence of `ch`. -/
def lstripAllCh (ch : Char) (l : List Char) : List Char := l.dropWhile (· = ch)

/-- Substring test (`needle in haystack` in Python). -/
def containsSub (needle : List Char) : List Char → Bool
  | [] => needle = []
  | c :: rest => startsWithCh needle (c :: rest) || containsSub needle rest

/-- Split at the first occurrence of `needle`: returns the remainder after
it (`s.split(needle, 1)[1]` in Python), or `none` when absent. -/
def splitAfterFirst (needle : List Char) : List Char → Option (List Char)
  | [] => if needle = [] then some [] else none
  | c :: rest =>
    if startsWithCh needle (c :: rest) then some ((c :: rest).drop needle.length)
    else splitAfterFirst needle rest

/-- Model of `str.replace` for single characters. -/
def replaceCh (a b : Char) (l : List Char) : List Char :=
  l.map (fun c => if c = a then b else c)

def joinSlash (l : List String) : String := String.intercalate "/" l

/-! ### `urllib.parse.urlsplit` (the fields the downloader reads) -/

structure UrlParts where
  scheme : String
  netloc : String
  path : String
  query : String
  fragment : String
deriving DecidableEq, Repr

def schemeCh (c : Char) : Bool := c.isAlpha || c.isDigit || c = '+' || c = '-' || c = '.'

/-- Position of the first `:`: the pieces before and after it. -/
def splitAtColon : List Char → Option (List Char × List Char)
  | [] => none
  | c :: rest =>
    if c = ':' then some ([], rest)
    else
      match splitAtColon rest with
      | some (a, b) => some (c :: a, b)
      | none => none

/-- Scheme extraction of `urlsplit`: the text before the first `:` is a
scheme when nonempty, starting with a letter and made of scheme
characters; it is returned lowercased. -/
def splitScheme (l : List Char) : String × List Char :=
  match splitAtColon l with
  | some (a, b) =>
    match a with
    | [] => ("", l)
    | c :: _ =>
      if c.isAlpha && a.all schemeCh then (String.mk (a.map Char.toLower), b) else ("", l)
  | none => ("", l)

def notNetlocEnd (c : Char) : Bool := !(c = '/' || c = '?' || c = '#')

def urlparse (url : String) : UrlParts :=
  let (scheme, r1) := splitScheme url.data
  let (netloc, r2) :=
    match r1 with
    | '/' :: '/' :: rest => (String.mk (rest.takeWhile notNetlocEnd), rest.dropWhile notNetlocEnd)
    | _ => ("", r1)
  let (r3, fragment) :=
    if r2.contains '#' then (r2.takeWhile (· ≠ '#'), (r2.dropWhile (· ≠ '#')).drop 1)
    else (r2, [])
  let (path, query) :=
    if r3.contains '?' then (r3.takeWhile (· ≠ '?'), (r3.dropWhile (· ≠ '?')).drop 1)
    else (r3, [])
  ⟨scheme, netloc, String.mk path, String.mk query, String.mk fragment⟩

def urlunsplit (p : UrlParts) : String :=
  let u :=
    if p.netloc ≠ "" || startsWithStr p.path "//" then
      (if p.path ≠ "" && !startsWithStr p.path "/" then "//" ++ p.netloc ++ "/" ++ p.path
       else "//" ++ p.netloc ++ p.path)
    else p.path
  let u := if p.scheme ≠ "" then p.scheme ++ ":" ++ u else u
  let u := if p.query ≠ "" then u ++ "?" ++ p.query else u
  if p.fragment ≠ "" then u ++ "#" ++ p.fragment else u

def usesRelative : List String :=
  ["", "ftp", "http", "gopher", "nntp", "imap", "wais", "file", "https", "shttp",
   "mms", "prospero", "rtsp", "rtspu", "sftp", "svn", "svn+ssh", "ws", "wss"]

def usesNetloc : List String :=
  ["", "ftp", "http", "gopher", "nntp", "telnet", "imap", "wais", "file", "mms",
   "https", "shttp", "snews", "prospero", "rtsp", "rtspu", "rsync", "svn",
   "svn+ssh", "sftp", "nfs", "git", "git+ssh", "ws", "wss"]

/-- Model of `segments[1:-1] = filter(None, segments[1:-1])` of `urljoin`:
drop empty segments, keeping the first and last elements. -/
def dropInnerEmpty (l : List String) : List String :=
  match l with
  | [] => []
  | [x] => [x]
  | x :: rest =>
    match rest.getLast? with
    | none => [x]
    | some last => x :: (rest.dropLast.filter (fun s => s ≠ "")) ++ [last]

/-- The dot-segment resolution loop of `urljoin`. -/
def resolveSegs : List String → List String → List String
  | acc, [] => acc
  | acc, seg :: rest =>
    if seg = ".." then resolveSegs acc.dropLast rest
    else if seg = "." then resolveSegs acc rest
    else resolveSegs (acc ++ [seg]) rest

/-- Model of `urllib.parse.urljoin` (parameters are not modelled; none of the
URLs handled here carry `;`-parameters). -/
def urljoin (base url : String) : String :=
  if base = "" then url
  else if url = "" then base
  else
    let b := urlparse base
    let u := urlparse url
    let scheme := if u.scheme = "" ∧ (splitScheme url.data).1 = "" then b.scheme else u.scheme
    if scheme ≠ b.scheme || !usesRelative.contains scheme then url
    else
      let netloc :=
        if usesNetloc.contains scheme then (if u.netloc ≠ "" then u.netloc else b.netloc)
        else u.netloc
      if usesNetloc.contains scheme && u.netloc ≠ "" then
        urlunsplit ⟨scheme, u.netloc, u.path, u.query, u.fragment⟩
      else if u.path = "" then
        urlunsplit ⟨scheme, netloc, b.path, (if u.query = "" then b.query else u.query), u.fragment⟩
      else
        let baseParts := (splitOnCh '/' b.path.data).map String.mk
        let baseParts := if baseParts.getLastD "" ≠ "" then baseParts.dropLast else baseParts
        let urlSegs := (splitOnCh '/' u.path.data).map String.mk
        let segments :=
          if startsWithStr u.path "/" then urlSegs else dropInnerEmpty (baseParts ++ urlSegs)
        let resolved := resolveSegs [] segments
        let resolved :=
          if segments.getLastD "" = ".." || segments.getLastD "" = "." then resolved ++ [""]
          else resolved
        let path := joinSlash resolved
        urlunsplit ⟨scheme, netloc, (if path = "" then "/" else path), u.query, u.fragment⟩

example : urlparse "http://example.com/a/b?x=1#f" =
    ⟨"http", "example.com", "/a/b", "x=1", "f"⟩ := by decide
example : urlparse "mailto:test@example.com" = ⟨"mailto", "", "test@example.com", "", ""⟩ := by
  decide
example : urlparse "not-a-url" = ⟨"", "", "not-a-url", "", ""⟩ := by decide
example : urljoin "http://example.com/index.html" "mailto:test@example.com" =
    "mailto:test@example.com" := by decide
example : urljoin "http://example.com/index.html" "data:foo" = "data:foo" := by decide
example : urljoin "https://example.com/a/b.html" "https://example.com/c.css" =
    "https://example.com/c.css" := by decide
example : urljoin "http://example.com/" "page.html" = "http://example.com/page.html" := by decide
example : urljoin "http://example.com" "u.html" = "http://example.com/u.html" := by decide
example : urljoin "http://example.com/a/b/" "../x.css" = "http://example.com/a/x.css" := by decide

/-! ### `urllib.parse.unquote` and `normalize_url` -/

def hexDigitVal (c : Char) : Option Nat :=
  if c.isDigit then some (c.toNat - 48)
  else if 97 ≤ c.toLower.toNat ∧ c.toLower.toNat ≤ 102 then some (c.toLower.toNat - 87)
  else none

/-- Percent-decoding (`urllib.parse.unquote`); multi-byte UTF-8 escape
sequences are decoded bytewise, which agrees with the library on the
ASCII escapes the downloader can meet. -/
def unquoteCh : List Char → List Char
  | [] => []
  | '%' :: a :: b :: rest =>
    match hexDigitVal a, hexDigitVal b with
    | some x, some y => Char.ofNat (16 * x + y) :: unquoteCh rest
    | _, _ => '%' :: unquoteCh (a :: b :: rest)
  | c :: rest => c :: unquoteCh rest

/-- Model of `normalize_url` (advanced_downloader.py:174-187): drop the fragment,
percent-decode, and strip the trailing slashes of a non-root directory
path. -/
def normalize_url (url : String) : String :=
  let u := String.mk (unquoteCh (url.data.takeWhile (· ≠ '#')))
  let p := urlparse u
  if endsWithStr p.path "/" && p.path ≠ "/" then String.mk (rstripAllCh '/' u.data) else u

example : normalize_url "http://example.com/a/#frag" = "http://example.com/a" := by decide
example : normalize_url "http://example.com/a%20b" = "http://example.com/a b" := by decide
example : normalize_url "http://example.com/" = "http://example.com/" := by decide

/-! ### Downloader configuration and URL scope -/

/-- The configuration fields of `AdvancedWebsiteDownloader.__init__` that
the mirroring engine reads (`self.domain`, `self.max_depth`,
`self.output_dir` as path components, and the `include_subdomains` /
`force_redownload` flags). -/
structure Config where
  domain : String
  include_subdomains : Bool := false
  force_redownload : Bool := false
  max_depth : Nat := 10
  output_dir : List String := ["downloaded_site"]
deriving DecidableEq, Repr

/-- Model of `is_internal_url` (advanced_downloader.py:155-172). -/
def is_internal_url (cfg : Config) (url : String) : Bool :=
  let p := urlparse url
  if p.netloc = cfg.domain then true
  else if p.netloc = "" then true
  else if cfg.include_subdomains then endsWithStr p.netloc ("." ++ cfg.domain)
  else false

example : is_internal_url ⟨"example.com", false, false, 10, ["d"]⟩ "mailto:x@y.com" = true := by
  decide
example : is_internal_url ⟨"example.com", false, false, 10, ["d"]⟩ "https://other.com/x" =
    false := by decide

/-! ### `get_asset_type` and the `pathlib` fragments it relies on -/

/-- The `self.asset_types` table (advanced_downloader.py:50-59), in
insertion order. -/
def asset_types : List (String × List String) :=
  [("html", [".html", ".htm", ".php", ".asp", ".aspx", ".jsp"]),
   ("css", [".css"]),
   ("js", [".js"]),
   ("images", [".jpg", ".jpeg", ".png", ".gif", ".svg", ".ico", ".webp", ".bmp"]),
   ("fonts", [".woff", ".woff2", ".ttf", ".eot", ".otf"]),
   ("documents", [".pdf", ".doc", ".docx", ".txt"]),
   ("media", [".mp4", ".mp3", ".avi", ".mov", ".wav", ".ogg"]),
   ("archives", [".zip", ".tar", ".gz", ".rar"])]

/-- Model of `pathlib` component parsing: split on `/`, dropping empty and `.`
segments. -/
def pathParts (s : String) : List String :=
  ((splitOnCh '/' s.data).map String.mk).filter (fun t => t ≠ "" && t ≠ ".")

/-- Model of `pathlib.PurePath.name`. -/
def pathlibName (s : String) : String := (pathParts s).getLastD ""

/-- Index of the last `.` of a name, if any. -/
def lastDotIdx (l : List Char) : Option Nat :=
  (l.foldl (fun (st : Nat × Option Nat) c =>
    (st.1 + 1, if c = '.' then some st.1 else st.2)) (0, none)).2

/-- Model of `pathlib.PurePath.suffix` of a file name: the part from the last dot
on, unless the dot is leading or trailing. -/
def nameSuffix (name : String) : String :=
  match lastDotIdx name.data with
  | some i => if 0 < i ∧ i < name.data.length - 1 then String.mk (name.data.drop i) else ""
  | none => ""

/-- Model of `pathlib.PurePath.stem`: the name with `nameSuffix` removed. -/
def nameStem (name : String) : String :=
  match lastDotIdx name.data with
  | some i => if 0 < i ∧ i < name.data.length - 1 then String.mk (name.data.take i) else name
  | none => name

/-- Model of `get_asset_type` (advanced_downloader.py:189-206): classify a URL by
the lowercased extension of its path, defaulting to `html` for
extensionless paths and `other` for unknown extensions. -/
def get_asset_type (url : String) : String :=
  let p := urlparse url
  let path := toLowerStr p.path
  let ext := nameSuffix (pathlibName path)
  match asset_types.find? (fun kv => kv.2.contains ext) with
  | some kv => kv.1
  | none => if ext = "" ∨ ext = "." then "html" else "other"

example : get_asset_type "http://example.com/a/b.html" = "html" := by decide
example : get_asset_type "http://example.com/c.css" = "css" := by decide
example : get_asset_type "http://example.com/" = "html" := by decide
example : get_asset_type "http://example.com" = "html" := by decide
example : get_asset_type "http://example.com/pic.JPG" = "images" := by decide
example : get_asset_type "mailto:test@example.com" = "other" := by decide
example : get_asset_type "http://example.com/u.html" = "html" := by decide

/-! ### `url_to_filepath` and relative mirror paths

Mirror paths are represented as their component lists (the `pathlib`
parts of the file relative to the filesystem root of the run); the
configured output directory is the leading components. -/

/-- Model of `str(Path(path).with_name(newname))`. -/
def withNamePath (path newname : String) : String :=
  joinSlash ((pathParts path).dropLast ++ [newname])

/-- The `path` string built by `url_to_filepath`
(advanced_downloader.py:208-229) before it is joined onto
`self.output_dir`. -/
def url_to_filepath_str (url : String) : String :=
  let parsed := urlparse url
  let path := String.mk (lstripAllCh '/' parsed.path.data)
  let path :=
    if path = "" then "index.html"
    else if endsWithStr path "/" then path ++ "index.html"
    else path
  let path :=
    if !containsCh '.' (pathlibName path) && get_asset_type url = "html" then path ++ ".html"
    else path
  if parsed.query ≠ "" then
    let queryPart :=
      String.mk (replaceCh '?' '_' (replaceCh '=' '-' (replaceCh '&' '_' parsed.query.data)))
    withNamePath path (nameStem (pathlibName path) ++ "_" ++ queryPart ++ nameSuffix (pathlibName path))
  else path

/-- Model of `url_to_filepath` as the component list of `output_dir / path`. -/
def url_to_filepath (cfg : Config) (url : String) : List String :=
  cfg.output_dir ++ pathParts (url_to_filepath_str url)

/-- Python dict assignment `d[k] = v`: replace the binding in place or
append it. -/
def aliasInsert (k : String) (v : List String) (d : List (String × List String)) :
    List (String × List String) :=
  if d.any (fun kv => kv.1 = k) then d.map (fun kv => if kv.1 = k then (k, v) else kv)
  else d ++ [(k, v)]

/-- Model of `url_to_filepath` with its side effect on `self.url_aliases` made
explicit: returns the computed path together with the updated alias map. -/
def url_to_filepath_st (cfg : Config) (aliases : List (String × List String)) (url : String) :
    List String × List (String × List String) :=
  let fp := url_to_filepath cfg url
  (fp, aliasInsert url fp aliases)

/-- Length of the longest common leading run of two component lists
(`os.path.relpath` common-prefix step). -/
def commonLen : List String → List String → Nat
  | a :: as_, b :: bs => if a = b then commonLen as_ bs + 1 else 0
  | _, _ => 0

/-- Model of `os.path.relpath(path, start)` on component lists. -/
def relpathComps (pathC startC : List String) : List String :=
  let n := commonLen pathC startC
  List.replicate (startC.length - n) ".." ++ pathC.drop n

/-- Model of `os.path.relpath` rendered with forward slashes (the
`.replace(if backslash, slash)` of the source is the identity here). -/
def relPathStr (pathC startC : List String) : String :=
  let r := relpathComps pathC startC
  if r = [] then "." else joinSlash r

/-- Model of `convert_single_url` (advanced_downloader.py:475-488): resolve and
normalize the reference; in-scope targets are replaced by the relative
path from the current page's mirror directory to the target's mirror
location, others are returned unmodified. -/
def convert_single_url (cfg : Config) (url current_url : String)
    (current_filepath : List String) : String :=
  let absolute_url := urljoin current_url url
  let normalized_url := normalize_url absolute_url
  if is_internal_url cfg normalized_url then
    relPathStr (url_to_filepath cfg normalized_url) current_filepath.dropLast
  else url

example : url_to_filepath ⟨"example.com", false, false, 10, ["downloaded_site"]⟩
    "https://example.com/a/b.html" = ["downloaded_site", "a", "b.html"] := by decide
example : url_to_filepath ⟨"example.com", false, false, 10, ["downloaded_site"]⟩
    "https://example.com" = ["downloaded_site", "index.html"] := by decide
example : url_to_filepath ⟨"example.com", false, false, 10, ["downloaded_site"]⟩
    "https://example.com/p?a=1&b=2" = ["downloaded_site", "p_a-1_b-2.html"] := by decide
example : convert_single_url ⟨"example.com", false, false, 10, ["downloaded_site"]⟩
    "https://example.com/c.css" "https://example.com/a/b.html"
    ["downloaded_site", "a", "b.html"] = "../c.css" := by decide
example : convert_single_url ⟨"example.com", false, false, 10, ["downloaded_site"]⟩
    "https://other.com/x.css" "https://example.com/a/b.html"
    ["downloaded_site", "a", "b.html"] = "https://other.com/x.css" := by decide

/-! ### The CSS reference patterns

The source matches CSS references with `re` patterns; here each pattern
is rendered as a deterministic scanner returning the captured group and
the remainder after the whole match.  The greedy character classes of
the patterns leave the `re` engine no profitable backtracking on the
token shapes involved, so the scanners agree with the patterns there. -/

def isQuoteCh (c : Char) : Bool := c = quoteCh || c = apostCh

/-- The class `[^"\x27)\s]` of the `url()` patterns. -/
def urlGroupCh (c : Char) : Bool := !(isQuoteCh c || c = ')' || isSpaceCh c)

/-- The class `[^"\x27)]` of the `@import` conversion pattern. -/
def importGroupCh (c : Char) : Bool := !(isQuoteCh c || c = ')')

/-- Case-insensitive literal match: the remainder after `pre`, if `l`
starts with it. -/
def stripCIPre : List Char → List Char → Option (List Char)
  | [], l => some l
  | _ :: _, [] => none
  | p :: ps, c :: cs => if p.toLower = c.toLower then stripCIPre ps cs else none

/-- One match of `url\s*\(\s*["\x27]?([^"\x27)\s]+)["\x27]?\s*\)`
(IGNORECASE) anchored at the head of the input: the captured group and
the input remaining after the match. -/
def matchUrlTok (l : List Char) : Option (List Char × List Char) :=
  match stripCIPre "url".data l with
  | none => none
  | some r1 =>
    match r1.dropWhile isSpaceCh with
    | '(' :: r2 =>
      let r3 := r2.dropWhile isSpaceCh
      let r4 := match r3 with
        | c :: t => if isQuoteCh c then t else r3
        | [] => r3
      let grp := r4.takeWhile urlGroupCh
      if grp.isEmpty then none
      else
        let r5 := r4.drop grp.length
        let r6 := match r5 with
          | c :: t => if isQuoteCh c then t else r5
          | [] => r5
        match r6.dropWhile isSpaceCh with
        | ')' :: r7 => some (grp, r7)
        | _ => none
    | _ => none

/-- One match of `@import\s+["\x27]([^"\x27)]+)["\x27]` (IGNORECASE),
the conversion-side pattern, anchored at the head of the input. -/
def matchImportTok (l : List Char) : Option (List Char × List Char) :=
  match stripCIPre "@import".data l with
  | none => none
  | some r1 =>
    let ws := r1.takeWhile isSpaceCh
    if ws.isEmpty then none
    else
      match r1.drop ws.length with
      | q :: r2 =>
        if isQuoteCh q then
          let grp := r2.takeWhile importGroupCh
          if grp.isEmpty then none
          else
            match r2.drop grp.length with
            | q2 :: r3 => if isQuoteCh q2 then some (grp, r3) else none
            | [] => none
        else none
      | [] => none

/-- One match of
`@import\s+(?:url\s*\(\s*)?["\x27]?([^"\x27)\s]+)["\x27]?(?:\s*\))?`
(IGNORECASE), the extraction-side pattern, anchored at the head. -/
def matchImportExTok (l : List Char) : Option (List Char × List Char) :=
  match stripCIPre "@import".data l with
  | none => none
  | some r1 =>
    let ws := r1.takeWhile isSpaceCh
    if ws.isEmpty then none
    else
      let r2 := r1.drop ws.length
      let r3 := match stripCIPre "url".data r2 with
        | some ru =>
          match ru.dropWhile isSpaceCh with
          | '(' :: rv => rv.dropWhile isSpaceCh
          | _ => r2
        | none => r2
      let r4 := match r3 with
        | c :: t => if isQuoteCh c then t else r3
        | [] => r3
      let grp := r4.takeWhile urlGroupCh
      if grp.isEmpty then none
      else
        let r5 := r4.drop grp.length
        let r6 := match r5 with
          | c :: t => if isQuoteCh c then t else r5
          | [] => r5
        let r7 := match r6.dropWhile isSpaceCh with
          | ')' :: t => t
          | _ => r6
        some (grp, r7)

/-- Model of `re.sub` over a pattern scanner: scan left to right, emit the
replacement (a function of the group and of the whole matched text) for
each match and resume after it.  The fuel is the input length; every
step consumes at least one character. -/
def cssSubF (matcher : List Char → Option (List Char × List Char))
    (repl : List Char → List Char → List Char) : Nat → List Char → List Char
  | 0, l => l
  | _ + 1, [] => []
  | n + 1, c :: rest =>
    match matcher (c :: rest) with
    | some (grp, after) =>
      let whole := (c :: rest).take ((c :: rest).length - after.length)
      repl grp whole ++ cssSubF matcher repl n after
    | none => c :: cssSubF matcher repl n rest

def cssSub (matcher : List Char → Option (List Char × List Char))
    (repl : List Char → List Char → List Char) (l : List Char) : List Char :=
  cssSubF matcher repl l.length l

/-- Model of `re.finditer` over a pattern scanner: the captured groups, left to
right. -/
def cssFindF (matcher : List Char → Option (List Char × List Char)) :
    Nat → List Char → List (List Char)
  | 0, _ => []
  | _ + 1, [] => []
  | n + 1, c :: rest =>
    match matcher (c :: rest) with
    | some (grp, after) => grp :: cssFindF matcher n after
    | none => cssFindF matcher n rest

def cssFindAll (matcher : List Char → Option (List Char × List Char)) (l : List Char) :
    List (List Char) :=
  cssFindF matcher l.length l

/-- Python `set.add`: sets are kept as duplicate-free lists. -/
def insertNew (x : String) (l : List String) : List String :=
  if l.contains x then l else l ++ [x]

/-- Model of `extend`/`update` with `insertNew`. -/
def unionNew (l : List String) (xs : List String) : List String := xs.foldl (fun a x => insertNew x a) l

/-- Processing of one captured CSS reference group by `extract_css_urls`
(advanced_downloader.py:369-389): strip it, drop empty and `data:`
values, otherwise resolve against the base URL, normalize and add. -/
def cssCollectGroup (base_url : String) (acc : List String) (grp : List Char) : List String :=
  let url := String.mk (stripCh grp)
  if url ≠ "" && !startsWithStr url "data:" then
    insertNew (normalize_url (urljoin base_url url)) acc
  else acc

/-- Model of `extract_css_urls` (advanced_downloader.py:369-389). -/
def extract_css_urls (css base_url : String) : List String :=
  (cssFindAll matchUrlTok css.data ++ cssFindAll matchImportExTok css.data).foldl
    (cssCollectGroup base_url) []

/-- Model of `convert_css_links` (advanced_downloader.py:439-473): substitute
`url()` references and then `@import` references, re-emitting converted
tokens as `url("...")` and `@import "..."` and leaving empty or `data:`
groups as their original matched text. -/
def convert_css_links (cfg : Config) (css current_url : String) : String :=
  let current_filepath := url_to_filepath cfg current_url
  let replUrl := fun (grp whole : List Char) =>
    let url := String.mk (stripCh grp)
    if url ≠ "" && !startsWithStr url "data:" then
      "url(".data ++ [quoteCh] ++ (convert_single_url cfg url current_url current_filepath).data
        ++ [quoteCh] ++ [')']
    else whole
  let replImport := fun (grp whole : List Char) =>
    let url := String.mk (stripCh grp)
    if url ≠ "" && !startsWithStr url "data:" then
      "@import ".data ++ [quoteCh]
        ++ (convert_single_url cfg url current_url current_filepath).data ++ [quoteCh]
    else whole
  String.mk (cssSub matchImportTok replImport (cssSub matchUrlTok replUrl css.data))

/-- Model of `parse_url_attribute` (advanced_downloader.py:349-367).  On the
srcset branch the source indexes `part.strip().split()[0]`, which raises
on an all-whitespace part; that corner is modelled as contributing no
URL. -/
def parse_url_attribute (attr_value base_url : String) : List String :=
  if containsCh ',' attr_value && (containsCh 'w' attr_value || containsCh 'x' attr_value) then
    (splitOnCh ',' attr_value.data).foldl (fun acc part =>
      match wsTokens (stripCh part) with
      | [] => acc
      | tok :: _ =>
        let url := String.mk tok
        if url ≠ "" then insertNew (normalize_url (urljoin base_url url)) acc else acc) []
  else
    let v := String.mk (stripCh attr_value.data)
    if v ≠ "" then [normalize_url (urljoin base_url v)] else []

example : parse_url_attribute "image-320w.jpg 320w, image-480w.jpg 480w" "https://example.com/" =
    ["https://example.com/image-320w.jpg", "https://example.com/image-480w.jpg"] := by decide
example : parse_url_attribute " page2.html " "https://example.com/" =
    ["https://example.com/page2.html"] := by decide
example : extract_css_urls "body \x7b background: url(bg.jpg); \x7d @import \x22reset.css\x22"
    "https://example.com/styles/" =
    ["https://example.com/styles/bg.jpg", "https://example.com/styles/reset.css"] := by decide
example : extract_css_urls ".icon \x7b background: url(data:image/svg;base64AA); \x7d"
    "https://example.com/" = [] := by decide
example : convert_css_links ⟨"example.com", false, false, 10, ["downloaded_site"]⟩
    "body \x7b background: url(http://other.com/a.png); \x7d" "http://example.com/index.html" =
    "body \x7b background: url(\x22http://other.com/a.png\x22); \x7d" := by decide
example : convert_css_links ⟨"example.com", false, false, 10, ["downloaded_site"]⟩
    "@import \x22/c.css\x22" "http://example.com/a/b.html" = "@import \x22../c.css\x22" := by
  decide

/-! ### The parsed-document view

BeautifulSoup documents are abstracted to the flat element sequence that
`find_all` traverses: each element is its tag name, its attributes in
document order, and its string content (used for `<style>` blocks). -/

structure Element where
  tag : String
  attrs : List (String × String)
  text : Option String := none
deriving DecidableEq, Repr

abbrev Doc := List Element

def getAttr (e : Element) (a : String) : Option String :=
  (e.attrs.find? (fun kv => kv.1 = a)).map (·.2)

/-- Model of `element[attr] = v` on an existing attribute. -/
def setAttr (e : Element) (a v : String) : Element :=
  { e with attrs := e.attrs.map (fun kv => if kv.1 = a then (a, v) else kv) }

/-- The extraction selector table (advanced_downloader.py:307-319). -/
def extractSelectors : List (String × List String) :=
  [("a", ["href"]), ("link", ["href"]), ("script", ["src"]),
   ("img", ["src", "data-src", "data-lazy-src"]), ("source", ["src", "srcset"]),
   ("iframe", ["src"]), ("embed", ["src"]), ("object", ["data"]),
   ("video", ["src", "poster"]), ("audio", ["src"]), ("track", ["src"])]

/-- The conversion selector table (advanced_downloader.py:406-417). -/
def convertSelectors : List (String × List String) :=
  [("a", ["href"]), ("link", ["href"]), ("script", ["src"]), ("img", ["src", "data-src"]),
   ("source", ["src"]), ("iframe", ["src"]), ("embed", ["src"]), ("object", ["data"]),
   ("video", ["src", "poster"]), ("audio", ["src"])]

/-- Model of `extract_links_advanced` (advanced_downloader.py:301-347) over the
parsed view: the selector table, then inline `style` attributes, then
`<style>` blocks, then `meta http-equiv=refresh`.  On the refresh corner
where `url=` occurs in the lowercased content only, the source raises
`IndexError`; it is modelled as adding no link. -/
def extract_links_advanced (doc : Doc) (base_url : String) : List String :=
  let l1 := extractSelectors.foldl (fun acc ta =>
    doc.foldl (fun acc e =>
      if e.tag = ta.1 then
        ta.2.foldl (fun acc a =>
          match getAttr e a with
          | some v => if v ≠ "" then unionNew acc (parse_url_attribute v base_url) else acc
          | none => acc) acc
      else acc) acc) []
  let l2 := doc.foldl (fun acc e =>
    match getAttr e "style" with
    | some s => unionNew acc (extract_css_urls s base_url)
    | none => acc) l1
  let l3 := doc.foldl (fun acc e =>
    if e.tag = "style" then
      match e.text with
      | some s => if s ≠ "" then unionNew acc (extract_css_urls s base_url) else acc
      | none => acc
    else acc) l2
  doc.foldl (fun acc e =>
    if e.tag = "meta" && getAttr e "http-equiv" = some "refresh" then
      let content := (getAttr e "content").getD ""
      if containsSub "url=".data (toLowerStr content).data then
        match splitAfterFirst "url=".data content.data with
        | some rest =>
          insertNew (normalize_url (urljoin base_url (String.mk (stripCh rest)))) acc
        | none => acc
      else acc
    else acc) l3

/-- One attribute rewrite of `convert_html_links`
(advanced_downloader.py:421-426): a present, nonempty attribute of the
conversion table whose converted value differs is overwritten. -/
def convertAttrStep (cfg : Config) (current_url : String) (current_filepath : List String)
    (e : Element) (a : String) : Element :=
  match getAttr e a with
  | some v =>
    if v ≠ "" then
      let c := convert_single_url cfg v current_url current_filepath
      if c ≠ v then setAttr e a c else e
    else e
  | none => e

/-- The per-element attribute pass of `convert_html_links`
(advanced_downloader.py:419-426). -/
def convertAttrs (cfg : Config) (current_url : String) (current_filepath : List String)
    (e : Element) : Element :=
  match convertSelectors.find? (fun p => p.1 = e.tag) with
  | none => e
  | some p => p.2.foldl (convertAttrStep cfg current_url current_filepath) e

/-- The inline-style pass (advanced_downloader.py:429-430). -/
def convertStyleAttr (cfg : Config) (current_url : String) (e : Element) : Element :=
  match getAttr e "style" with
  | some s => setAttr e "style" (convert_css_links cfg s current_url)
  | none => e

/-- The `<style>` block pass (advanced_downloader.py:433-435). -/
def convertStyleTag (cfg : Config) (current_url : String) (e : Element) : Element :=
  if e.tag = "style" then
    match e.text with
    | some s => if s ≠ "" then { e with text := some (convert_css_links cfg s current_url) } else e
    | none => e
  else e

/-- The document transformation performed by `convert_html_links`
(advanced_downloader.py:400-437) between parsing and re-serialization. -/
def convertDoc (cfg : Config) (doc : Doc) (current_url : String) : Doc :=
  let current_filepath := url_to_filepath cfg current_url
  ((doc.map (convertAttrs cfg current_url current_filepath)).map
    (convertStyleAttr cfg current_url)).map (convertStyleTag cfg current_url)

/-- The external HTML parse/serialize primitive (BeautifulSoup with the
lxml tree builder); out of scope per the spec, §6. -/
structure SoupPrim where
  parse : String → Doc
  serial : Doc → String

/-- Model of `convert_html_links`: parse, transform the tree, re-serialize. -/
def convert_html_links (prim : SoupPrim) (cfg : Config) (html current_url : String) : String :=
  prim.serial (convertDoc cfg (prim.parse html) current_url)

/-- Model of `convert_links_advanced` (advanced_downloader.py:391-398). -/
def convert_links_advanced (prim : SoupPrim) (cfg : Config)
    (content current_url content_type : String) : String :=
  if content_type = "html" then convert_html_links prim cfg content current_url
  else if content_type = "css" then convert_css_links cfg content current_url
  else content

/-! ### Crawl state, fetching with retry, the worker and the driver -/

inductive Event where
  /-- One underlying `download_file` call for a URL (0-based attempt index). -/
  | fetchAttempt (url : String) (attempt : Nat)
  /-- The `time.sleep(2 ** attempt)` backoff, in seconds. -/
  | backoff (url : String) (secs : Nat)
deriving DecidableEq, Repr

/-- The mutable crawl state of `AdvancedWebsiteDownloader`
(`downloaded_urls`, `failed_urls`, `download_stats`, `url_aliases`),
plus the trace of fetch attempts and backoffs the run has performed. -/
structure CrawlState where
  downloaded_urls : List String := []
  failed_urls : List String := []
  download_stats : List (String × Nat) := []
  url_aliases : List (String × List String) := []
  trace : List Event := []
deriving DecidableEq, Repr

/-- What one network interaction of `download_file` does: a response
(with its content type) or a raised `requests` exception (covering
`raise_for_status` as well). -/
inductive NetResult where
  | resp (content_type : String)
  | excep
deriving DecidableEq, Repr

/-- The environment one `download_file` call observes: whether the
target file already exists on disk, and the network outcome. -/
structure AttemptWorld where
  file_exists : Bool
  net : NetResult
deriving DecidableEq, Repr

/-- Model of `defaultdict(int)` increment for `download_stats`. -/
def bump (k : String) (stats : List (String × Nat)) : List (String × Nat) :=
  if stats.any (fun kv => kv.1 = k) then
    stats.map (fun kv => if kv.1 = k then (k, kv.2 + 1) else kv)
  else stats ++ [(k, 1)]

def statsSum (stats : List (String × Nat)) : Nat := (stats.map (·.2)).sum

/-- Model of `download_file` (advanced_downloader.py:253-299): when the mapped
file exists and re-download is not forced, return success recording only
`downloaded_urls`; otherwise perform the request, and on success record
the URL and bump the per-asset-type counter.  A raised exception leaves
the crawl state unchanged and propagates (`Except.error`). -/
def download_file (cfg : Config) (w : AttemptWorld) (url : String) (st : CrawlState) :
    Except Unit (Bool × CrawlState) :=
  if w.file_exists && !cfg.force_redownload then
    .ok (true, { st with downloaded_urls := insertNew url st.downloaded_urls })
  else
    match w.net with
    | .excep => .error ()
    | .resp _ =>
      .ok (true, { st with
        downloaded_urls := insertNew url st.downloaded_urls,
        download_stats := bump (get_asset_type url) st.download_stats })

/-- The retry loop of `download_file_with_retry`
(advanced_downloader.py:236-251), counting down the remaining attempts:
log the underlying attempt, call `download_file`, and on an exception
either record the URL as failed (last attempt) or back off `2^attempt`
seconds and retry. -/
def retryLoop (cfg : Config) (env : Nat → AttemptWorld) (url : String) :
    Nat → Nat → CrawlState → Bool × CrawlState
  | 0, _, st => (false, st)
  | remaining + 1, attempt, st =>
    let st := { st with trace := st.trace ++ [.fetchAttempt url attempt] }
    match download_file cfg (env attempt) url st with
    | .ok (b, st2) => (b, st2)
    | .error _ =>
      if remaining = 0 then (false, { st with failed_urls := insertNew url st.failed_urls })
      else retryLoop cfg env url remaining (attempt + 1)
        { st with trace := st.trace ++ [.backoff url (2 ^ attempt)] }

/-- Model of `download_file_with_retry` with `max_retries=3`. -/
def download_file_with_retry (cfg : Config) (env : Nat → AttemptWorld) (url : String)
    (st : CrawlState) : Bool × CrawlState :=
  retryLoop cfg env url 3 0 st

/-- The discovered-link loop of `download_worker`
(advanced_downloader.py:520-527): keep in-scope not-yet-downloaded
links, at `depth+1` for `html` links and `depth` otherwise. -/
def enqueueLinks (cfg : Config) (st : CrawlState) (depth : Nat) (links : List String) :
    List (String × Nat) :=
  links.foldl (fun acc link =>
    if st.downloaded_urls.contains link then acc
    else if is_internal_url cfg link then
      if get_asset_type link = "html" then acc ++ [(link, depth + 1)]
      else acc ++ [(link, depth)]
    else acc) []

/-- Model of `download_worker` (advanced_downloader.py:490-553).  The file
contents read back from disk are external to the crawl state, so link
extraction is an oracle `extractO` from the fetched URL to the link set
the extractor produces for its content; `canFetch` is the robots policy
oracle and `env` the per-URL, per-attempt fetch environment. -/
def download_worker (cfg : Config) (env : String → Nat → AttemptWorld)
    (canFetch : String → Bool) (extractO : String → List String)
    (unit : String × Nat) (st : CrawlState) : CrawlState × List (String × Nat) :=
  let url := unit.1
  let depth := unit.2
  if st.downloaded_urls.contains url || depth > cfg.max_depth then (st, [])
  else if !canFetch url then (st, [])
  else
    let st := { st with url_aliases := aliasInsert url (url_to_filepath cfg url) st.url_aliases }
    let r := download_file_with_retry cfg (env url) url st
    let st := r.2
    if r.1 then
      let asset_type := get_asset_type url
      if asset_type = "html" then
        let links := if is_internal_url cfg url then extractO url else []
        (st, enqueueLinks cfg st depth links)
      else if asset_type = "css" then
        (st, (extractO url).foldl (fun acc u =>
          if !st.downloaded_urls.contains u && is_internal_url cfg u then acc ++ [(u, depth)]
          else acc) [])
      else (st, [])
    else (st, [])

/-- Model of `download_sequential` (advanced_downloader.py:570-575): FIFO
processing of the frontier, appending newly discovered units.  The fuel
bounds the number of dequeues of the run under scrutiny. -/
def download_sequential (cfg : Config) (env : String → Nat → AttemptWorld)
    (canFetch : String → Bool) (extractO : String → List String) :
    Nat → List (String × Nat) → CrawlState → CrawlState
  | 0, _, st => st
  | _ + 1, [], st => st
  | fuel + 1, unit :: rest, st =>
    let r := download_worker cfg env canFetch extractO unit st
    download_sequential cfg env canFetch extractO fuel (rest ++ r.2) r.1

/-- Fetch attempts recorded for a URL. -/
def attemptCount (tr : List Event) (url : String) : Nat :=
  tr.countP (fun e => match e with
    | .fetchAttempt u _ => u = url
    | _ => false)

/-! ### `verify_completeness` -/

/-- The mirror directory as the verifier sees it: the set of existing
files (as resolved component paths) and the persisted `*.html` files
with their parsed saved content. -/
structure Mirror where
  files : List (List String)
  html_files : List (List String × Doc)
deriving DecidableEq, Repr

/-- Component-path resolution as performed by the OS on an `exists()`
check: `..` pops a component, other components push (`.` and empty ones
were already dropped by `pathParts`). -/
def normComps (l : List String) : List String :=
  l.foldl (fun acc c => if c = ".." then acc.dropLast else acc ++ [c]) []

def fileExists (m : Mirror) (p : List String) : Bool := m.files.contains (normComps p)

/-- Model of `html_file.parent / href` as components. -/
def hrefTarget (dir : List String) (href : String) : List String :=
  if startsWithStr href "/" then pathParts href else dir ++ pathParts href

/-- The prefixes `verify_completeness` treats as external
(advanced_downloader.py:618). -/
def externalPrefixes : List String := ["http://", "https://", "mailto:", "tel:"]

/-- Model of `verify_completeness` (advanced_downloader.py:597-637): a recorded
download whose aliased path is missing is a missing file; an `a`/`link`
`href` of a persisted HTML file that does not start with one of the
external prefixes and does not resolve to an existing file beside it is
a broken link.  Returns whether both lists are empty. -/
def verify_completeness (st : CrawlState) (m : Mirror) : Bool :=
  let missing := st.downloaded_urls.filter (fun url =>
    match st.url_aliases.find? (fun kv => kv.1 = url) with
    | some kv => !fileExists m kv.2
    | none => false)
  let broken := m.html_files.foldl (fun acc pd =>
    pd.2.foldl (fun acc2 e =>
      if e.tag = "a" ∨ e.tag = "link" then
        match getAttr e "href" with
        | some href =>
          if externalPrefixes.any (fun p => startsWithStr href p) then acc2
          else if fileExists m (hrefTarget pd.1.dropLast href) then acc2
          else acc2 ++ [(pd.1, href)]
        | none => acc2
      else acc2) acc) ([] : List (List String × String))
  missing.isEmpty && broken.isEmpty

/-- Modelled from the spec: the scheme filter `isValidScheme`
(`is_valid_url_scheme` in the repository's tests) is absent from the
source files; per the spec it accepts exactly `http` and `https` URLs. -/
def is_valid_url_scheme (url : String) : Bool :=
  (urlparse url).scheme = "http" ∨ (urlparse url).scheme = "https"

example : is_valid_url_scheme "https://example.com" = true := by decide
example : is_valid_url_scheme "mailto:test@example.com" = false := by decide
example : is_valid_url_scheme "tel:+1234567890" = false := by decide
example : is_valid_url_scheme "javascript:void(0)" = false := by decide
example : is_valid_url_scheme "ftp://ftp.example.com" = false := by decide
example : is_valid_url_scheme "file:///local/file.txt" = false := by decide
example : is_valid_url_scheme "" = false := by decide
example : is_valid_url_scheme "not-a-url" = false := by decide

/-! ### The concrete crawl configuration of the test scenarios -/

/-- A crawl of `http://example.com` with the default configuration
(`include_subdomains=False`, `force_redownload=False`, `max_depth=10`,
output directory `downloaded_site`). -/
def exCfg : Config := ⟨"example.com", false, false, 10, ["downloaded_site"]⟩

/-! ### Claim C1 -/

/-- Claim C1: only `http`/`https` URLs were claimed to enter the
frontier.  The code has no scheme filter: the spec-modelled
`is_valid_url_scheme` rejects `mailto:test@example.com`, yet extraction
of `<a href="mailto:test@example.com">` yields exactly that URL
(`urljoin` returns foreign-scheme references unchanged), and the
enqueue logic of `download_worker` admits it to the frontier at the
parent depth because `is_internal_url` accepts any URL with an empty
netloc. -/
theorem c1_mailto_enters_frontier :
    is_valid_url_scheme "mailto:test@example.com" = false ∧
    extract_links_advanced [⟨"a", [("href", "mailto:test@example.com")], none⟩]
      "http://example.com/index.html" = ["mailto:test@example.com"] ∧
    is_internal_url exCfg "mailto:test@example.com" = true ∧
    enqueueLinks exCfg {} 0 ["mailto:test@example.com"] =
      [("mailto:test@example.com", 0)] := by
  decide

/-! ### Claim C6 -/

/-- A saved page referencing `missing.png` through `img src`. -/
def c6DocImg : Doc := [⟨"img", [("src", "missing.png")], none⟩]

/-- The same broken reference written as an anchor. -/
def c6DocAnchor : Doc := [⟨"a", [("href", "gone.html")], none⟩]

def c6MirrorImg : Mirror := ⟨[["index.html"]], [(["index.html"], c6DocImg)]⟩

def c6MirrorAnchor : Mirror := ⟨[["index.html"]], [(["index.html"], c6DocAnchor)]⟩

/-- Claim C6: the verifier was claimed to return false on any broken
non-external reference of a persisted HTML file.  Evaluating
`verify_completeness` at a mirror whose only HTML file references the
absent `missing.png` through `img src` returns `true` — the scan covers
only `a`/`link` `href` attributes — although the reference's target does
not exist; the same broken target referenced through an anchor `href`
makes it return `false`. -/
theorem c6_img_reference_not_checked :
    verify_completeness {} c6MirrorImg = true ∧
    fileExists c6MirrorImg (hrefTarget ([] : List String) "missing.png") = false ∧
    verify_completeness {} c6MirrorAnchor = false := by
  decide

/-! ### Claim C7 -/

/-- Claim C7 counterexample: a `data:` URL in an HTML attribute is
claimed never to appear in the extracted link set, but extraction of
`<img src="data:foo">` produces exactly `data:foo`:
`parse_url_attribute` has no `data:` filter. -/
theorem c7_data_url_extracted_from_attribute :
    extract_links_advanced [⟨"img", [("src", "data:foo")], none⟩]
      "http://example.com/index.html" = ["data:foo"] := by
  decide

/-- Claim C7 amended: `data:` values are dropped unconditionally only by
the CSS extraction path (`url()`/`@import` tokens, inline styles and
style blocks): a captured CSS group that strips to a `data:` value
contributes nothing, while a `data:` URL taken from an HTML attribute is
kept by `parse_url_attribute`. -/
theorem c7_data_dropped_only_in_css (base : String) (acc : List String) (g : List Char)
    (h : startsWithStr (String.mk (stripCh g)) "data:" = true) :
    cssCollectGroup base acc g = acc ∧
    parse_url_attribute "data:foo" "http://example.com/index.html" = ["data:foo"] := by
  refine ⟨?_, by decide⟩
  unfold cssCollectGroup
  simp [h]

/-- Witness for the amended C7 statement at `" data:x "`. -/
theorem c7_data_dropped_only_in_css_witness :
    cssCollectGroup "http://example.com/" ["u"] " data:x ".data = ["u"] ∧
    parse_url_attribute "data:foo" "http://example.com/index.html" = ["data:foo"] :=
  c7_data_dropped_only_in_css "http://example.com/" ["u"] " data:x ".data (by decide)

/-! ### Claim C8 -/

/-- Claim C8 counterexample: `url_to_filepath` is claimed side-effect-
free, but a call mutates the downloader's `url_aliases` map: starting
from an empty alias map, the state after the call is nonempty. -/
theorem c8_alias_map_mutated :
    (url_to_filepath_st exCfg [] "http://example.com/a.html").2 =
      [("http://example.com/a.html", ["downloaded_site", "a.html"])] ∧
    (url_to_filepath_st exCfg [] "http://example.com/a.html").2 ≠
      ([] : List (String × List String)) := by
  decide

/-- Key preservation of the alias-overwrite step. -/
theorem aliasSet_keeps_absent_keys (k : String) (v : List String)
    (d : List (String × List String)) (h : d.any (fun kv => kv.1 = k) = false) :
    d.map (fun kv => if kv.1 = k then (k, v) else kv) = d := by
  induction d with
  | nil => rfl
  | cons x xs ih =>
    simp only [List.any_cons, Bool.or_eq_false_iff] at h
    have hx : (x.1 = k) = False := by
      simpa using h.1
    simp [hx, ih h.2]

/-- Overwriting the same binding twice is the same as once. -/
theorem aliasInsert_idem (k : String) (v : List String) (d : List (String × List String)) :
    aliasInsert k v (aliasInsert k v d) = aliasInsert k v d := by
  unfold aliasInsert
  by_cases h : d.any (fun kv => kv.1 = k) = true
  · have h2 : (d.map (fun kv => if kv.1 = k then (k, v) else kv)).any
        (fun kv => kv.1 = k) = true := by
      rw [List.any_map]
      refine (List.any_eq_true).2 ?_
      obtain ⟨kv, hkv, hp⟩ := (List.any_eq_true).1 h
      refine ⟨kv, hkv, ?_⟩
      simp only [Function.comp]
      by_cases hk : kv.1 = k <;> simp [hk] at hp ⊢
    simp only [h, if_true, h2]
    rw [List.map_map]
    congr 1
    funext kv
    by_cases hk : kv.1 = k <;> simp [Function.comp, hk]
  · have hb : d.any (fun kv => kv.1 = k) = false := by
      rwa [Bool.not_eq_true] at h
    have h2 : (d ++ [(k, v)]).any (fun kv => kv.1 = k) = true := by
      simp
    simp only [hb, Bool.false_eq_true, if_false, h2, if_true]
    rw [List.map_append, aliasSet_keeps_absent_keys k v d hb]
    simp

/-- Claim C8 amended: the URL→path mapping is deterministic — the path
returned by `url_to_filepath` does not read the mutable alias state, so
two calls in any order and in any alias states return identical paths,
and a repeated call leaves the alias map unchanged — but each call does
write the URL's alias binding as a side effect. -/
theorem c8_path_mapping_deterministic (cfg : Config) (u : String)
    (a1 a2 : List (String × List String)) :
    (url_to_filepath_st cfg a1 u).1 = (url_to_filepath_st cfg a2 u).1 ∧
    (url_to_filepath_st cfg (url_to_filepath_st cfg a1 u).2 u).1 =
      (url_to_filepath_st cfg a1 u).1 ∧
    (url_to_filepath_st cfg (url_to_filepath_st cfg a1 u).2 u).2 =
      (url_to_filepath_st cfg a1 u).2 := by
  refine ⟨rfl, rfl, ?_⟩
  unfold url_to_filepath_st
  exact aliasInsert_idem u (url_to_filepath cfg u) a1

/-! ### Claim C10 -/

/-- Claim C10: with the mapped file on disk and `force_redownload`
disabled, `download_file` succeeds recording only `downloaded_urls`:
the failed set, the statistics, the aliases and the trace are those of
the input state.  Consequently the counter sum can undercount the
downloaded set, as the concrete run shows (one downloaded URL, counter
sum zero). -/
theorem c10_existing_file_short_circuit (cfg : Config) (w : AttemptWorld) (url : String)
    (st : CrawlState) (hex : w.file_exists = true) (hforce : cfg.force_redownload = false) :
    download_file cfg w url st =
      .ok (true, { st with downloaded_urls := insertNew url st.downloaded_urls }) ∧
    download_file exCfg ⟨true, .resp "text/html"⟩ "http://example.com/x.html" {} =
      .ok (true, { downloaded_urls := ["http://example.com/x.html"] }) ∧
    statsSum ({ downloaded_urls := ["http://example.com/x.html"] } : CrawlState).download_stats
      < ({ downloaded_urls := ["http://example.com/x.html"] } : CrawlState).downloaded_urls.length := by
  refine ⟨?_, by rfl, by decide⟩
  unfold download_file
  rw [hex, hforce]
  simp

/-- Witness for C10 at a concrete existing file. -/
theorem c10_existing_file_short_circuit_witness :
    download_file exCfg ⟨true, .excep⟩ "http://example.com/y.css"
        { failed_urls := ["f"], download_stats := [("css", 1)] } =
      .ok (true, { ({ failed_urls := ["f"], download_stats := [("css", 1)] } : CrawlState) with
        downloaded_urls := insertNew "http://example.com/y.css" [] }) :=
  (c10_existing_file_short_circuit exCfg ⟨true, .excep⟩ "http://example.com/y.css"
    { failed_urls := ["f"], download_stats := [("css", 1)] } rfl rfl).1

/-! ### Claim C4 -/

/-- What the link loop of `download_worker` decides for one discovered
link: dropped when already downloaded or out of scope, otherwise the
crawl unit it appends — at `depth + 1` for `html` links, at the parent
`depth` for every other asset type. -/
def enqueueDecision (cfg : Config) (st : CrawlState) (depth : Nat) (link : String) :
    Option (String × Nat) :=
  if st.downloaded_urls.contains link then none
  else if is_internal_url cfg link then
    some (link, if get_asset_type link = "html" then depth + 1 else depth)
  else none

/-- One step of a fold that appends the kept elements. -/
def optStep {α β : Type} (g : α → Option β) (acc : List β) (x : α) : List β :=
  match g x with
  | some y => acc ++ [y]
  | none => acc

/-- A fold appending the kept elements is a `filterMap`. -/
theorem foldl_opt_append {α β : Type} (g : α → Option β) :
    ∀ (l : List α) (acc : List β), l.foldl (optStep g) acc = acc ++ l.filterMap g := by
  intro l
  induction l with
  | nil => intro acc; simp
  | cons x xs ih =>
    intro acc
    simp only [List.foldl_cons, List.filterMap_cons]
    cases hg : g x with
    | none => simp [optStep, hg, ih]
    | some y => simp [optStep, hg, ih]

/-- Claim C4: the worker's enqueue pass is exactly the per-link
`enqueueDecision` — an in-scope, not-yet-downloaded link enters the
frontier at `depth+1` when classified `html` and at the page's own
`depth` otherwise — and a dequeued unit whose depth exceeds `max_depth`
leaves the state untouched and enqueues nothing, so it is never
fetched. -/
theorem c4_depth_rule (cfg : Config) (st : CrawlState) (depth : Nat) (links : List String)
    (env : String → Nat → AttemptWorld) (canFetch : String → Bool)
    (extractO : String → List String) (url : String) :
    enqueueLinks cfg st depth links = links.filterMap (enqueueDecision cfg st depth) ∧
    (depth > cfg.max_depth →
      download_worker cfg env canFetch extractO (url, depth) st = (st, [])) := by
  constructor
  · unfold enqueueLinks
    have hfun : (fun (acc : List (String × Nat)) link =>
        if st.downloaded_urls.contains link then acc
        else if is_internal_url cfg link then
          if get_asset_type link = "html" then acc ++ [(link, depth + 1)]
          else acc ++ [(link, depth)]
        else acc) = optStep (enqueueDecision cfg st depth) := by
      funext acc link
      unfold enqueueDecision optStep
      by_cases h1 : link ∈ st.downloaded_urls
      · simp [h1]
      · by_cases h2 : is_internal_url cfg link = true
        · by_cases h3 : get_asset_type link = "html" <;> simp [h1, h2, h3]
        · rw [Bool.not_eq_true] at h2
          simp [h1, h2]
    rw [hfun]
    simpa using foldl_opt_append (enqueueDecision cfg st depth) links []
  · intro h
    unfold download_worker
    simp [h]

/-- Witness for C4 at a concrete page of depth 2 discovering an `html`
link, a `css` link and an external link, and at a unit beyond
`max_depth`. -/
theorem c4_depth_rule_witness :
    enqueueLinks exCfg {} 2
        ["http://example.com/b.html", "http://example.com/c.css", "https://other.com/x"] =
      (["http://example.com/b.html", "http://example.com/c.css", "https://other.com/x"].filterMap
        (enqueueDecision exCfg {} 2)) ∧
    download_worker exCfg (fun _ _ => ⟨false, .excep⟩) (fun _ => true) (fun _ => [])
        ("http://example.com/deep.html", 11) {} = ({}, []) :=
  ⟨(c4_depth_rule exCfg {} 2
      ["http://example.com/b.html", "http://example.com/c.css", "https://other.com/x"]
      (fun _ _ => ⟨false, .excep⟩) (fun _ => true) (fun _ => []) "http://example.com/deep.html").1,
   (c4_depth_rule exCfg {} 11
      ["http://example.com/b.html", "http://example.com/c.css", "https://other.com/x"]
      (fun _ _ => ⟨false, .excep⟩) (fun _ => true) (fun _ => []) "http://example.com/deep.html").2
      (by decide)⟩

/-! ### Claim C5 -/

/-- Claim C5: for a reference of a page, `convert_single_url` resolves
and normalizes the target; when the target is out of scope the original
reference is returned unchanged, and when it is in scope the reference
becomes the `os.path.relpath` from the page's mirror directory to the
target's mirror path, joined with forward slashes.  At the spec's
example, a page `https://example.com/a/b.html` referencing
`https://example.com/c.css` is rewritten to `../c.css` while
`https://other.com/x.css` is left unchanged. -/
theorem c5_rewrite_rule (cfg : Config) (ref cu : String) :
    (is_internal_url cfg (normalize_url (urljoin cu ref)) = false →
      convert_single_url cfg ref cu (url_to_filepath cfg cu) = ref) ∧
    (is_internal_url cfg (normalize_url (urljoin cu ref)) = true →
      convert_single_url cfg ref cu (url_to_filepath cfg cu) =
        relPathStr (url_to_filepath cfg (normalize_url (urljoin cu ref)))
          (url_to_filepath cfg cu).dropLast) ∧
    convert_single_url exCfg "https://example.com/c.css" "https://example.com/a/b.html"
      (url_to_filepath exCfg "https://example.com/a/b.html") = "../c.css" ∧
    convert_single_url exCfg "https://other.com/x.css" "https://example.com/a/b.html"
      (url_to_filepath exCfg "https://example.com/a/b.html") = "https://other.com/x.css" := by
  refine ⟨?_, ?_, by decide, by decide⟩
  · intro h
    unfold convert_single_url
    simp [h]
  · intro h
    unfold convert_single_url
    simp [h]

/-- Witness for C5's conditional parts at the spec's two references. -/
theorem c5_rewrite_rule_witness :
    convert_single_url exCfg "https://other.com/x.css" "https://example.com/a/b.html"
      (url_to_filepath exCfg "https://example.com/a/b.html") = "https://other.com/x.css" ∧
    convert_single_url exCfg "https://example.com/c.css" "https://example.com/a/b.html"
      (url_to_filepath exCfg "https://example.com/a/b.html") =
      relPathStr
        (url_to_filepath exCfg
          (normalize_url (urljoin "https://example.com/a/b.html" "https://example.com/c.css")))
        (url_to_filepath exCfg "https://example.com/a/b.html").dropLast :=
  ⟨(c5_rewrite_rule exCfg "https://other.com/x.css" "https://example.com/a/b.html").1 (by decide),
   (c5_rewrite_rule exCfg "https://example.com/c.css" "https://example.com/a/b.html").2.1
     (by decide)⟩

/-! ### Claim C2 -/

/-- Model of `download_file` never records a fetch-attempt event itself. -/
theorem download_file_trace_eq (cfg : Config) (w : AttemptWorld) (url : String)
    (st : CrawlState) : ∀ b st2, download_file cfg w url st = .ok (b, st2) →
    st2.trace = st.trace := by
  intro b st2 h
  unfold download_file at h
  by_cases h1 : (w.file_exists && !cfg.force_redownload) = true
  · rw [if_pos h1] at h
    cases h
    rfl
  · rw [if_neg h1] at h
    cases hw : w.net with
    | excep => rw [hw] at h; cases h
    | resp ct => rw [hw] at h; cases h; rfl

theorem attemptCount_append (t1 t2 : List Event) (url : String) :
    attemptCount (t1 ++ t2) url = attemptCount t1 url + attemptCount t2 url := by
  simp [attemptCount, List.countP_append]

theorem attemptCount_one (url : String) (n : Nat) :
    attemptCount [.fetchAttempt url n] url = 1 := by
  simp [attemptCount, List.countP_cons]

theorem attemptCount_backoff (url u : String) (s : Nat) :
    attemptCount [.backoff u s] url = 0 := by
  simp [attemptCount, List.countP_cons]

/-- The retry loop performs at most `rem` further underlying attempts. -/
theorem retryLoop_attempts_le (cfg : Config) (env : Nat → AttemptWorld) (url : String) :
    ∀ (rem att : Nat) (st : CrawlState),
      attemptCount (retryLoop cfg env url rem att st).2.trace url ≤
        attemptCount st.trace url + rem := by
  intro rem
  induction rem with
  | zero => intro att st; simp [retryLoop]
  | succ n ih =>
    intro att st
    unfold retryLoop
    cases hdf : download_file cfg (env att) url
        { st with trace := st.trace ++ [.fetchAttempt url att] } with
    | ok p =>
      obtain ⟨b, st2⟩ := p
      have ht := download_file_trace_eq cfg (env att) url _ b st2 hdf
      simp only [hdf, ht, attemptCount_append, attemptCount_one]
      omega
    | error e =>
      simp only [hdf]
      by_cases hn : n = 0
      · subst hn
        simp [attemptCount_append, attemptCount_one]
      · simp only [hn, if_false]
        refine le_trans (ih (att + 1) _) ?_
        simp [attemptCount, List.countP_append, List.countP_cons]
        omega

/-- The retry loop performs at least one underlying attempt when any
attempts remain. -/
theorem retryLoop_attempts_ge (cfg : Config) (env : Nat → AttemptWorld) (url : String) :
    ∀ (rem att : Nat) (st : CrawlState), 1 ≤ rem →
      attemptCount st.trace url + 1 ≤
        attemptCount (retryLoop cfg env url rem att st).2.trace url := by
  intro rem
  induction rem with
  | zero => intro att st h; omega
  | succ n ih =>
    intro att st _
    unfold retryLoop
    cases hdf : download_file cfg (env att) url
        { st with trace := st.trace ++ [.fetchAttempt url att] } with
    | ok p =>
      obtain ⟨b, st2⟩ := p
      have ht := download_file_trace_eq cfg (env att) url _ b st2 hdf
      simp only [hdf, ht, attemptCount_append, attemptCount_one]
      omega
    | error e =>
      simp only [hdf]
      by_cases hn : n = 0
      · subst hn
        simp [attemptCount, List.countP_append, List.countP_cons]
      · simp only [hn, if_false]
        refine le_trans ?_ (ih (att + 1) _ (by omega))
        simp [attemptCount, List.countP_append, List.countP_cons]

/-- Claim C2: a fetch makes at most 3 underlying attempts with backoff
`2^attempt` seconds between consecutive attempts.  When the first two
attempts raise and the third responds, the fetch returns success, its
trace showing exactly the attempts 0, 1, 2 interleaved with backoffs of
1 and 2 seconds, and the URL is recorded as downloaded; when all three
attempts raise, it returns failure with the URL added to `failed_urls`
and `downloaded_urls` untouched by the call. -/
theorem c2_retry_behaviour (cfg : Config) (env : Nat → AttemptWorld) (url ct : String)
    (st : CrawlState)
    (hex0 : (env 0).file_exists = false) (hex1 : (env 1).file_exists = false)
    (hex2 : (env 2).file_exists = false)
    (h0 : (env 0).net = .excep) (h1 : (env 1).net = .excep) :
    ((env 2).net = .resp ct →
      download_file_with_retry cfg env url st =
        (true, { st with
          downloaded_urls := insertNew url st.downloaded_urls,
          download_stats := bump (get_asset_type url) st.download_stats,
          trace := st.trace ++ [.fetchAttempt url 0, .backoff url 1, .fetchAttempt url 1,
            .backoff url 2, .fetchAttempt url 2] })) ∧
    ((env 2).net = .excep →
      download_file_with_retry cfg env url st =
        (false, { st with
          failed_urls := insertNew url st.failed_urls,
          trace := st.trace ++ [.fetchAttempt url 0, .backoff url 1, .fetchAttempt url 1,
            .backoff url 2, .fetchAttempt url 2] })) ∧
    (∀ env2 : Nat → AttemptWorld,
      attemptCount (download_file_with_retry cfg env2 url st).2.trace url ≤
        attemptCount st.trace url + 3) := by
  refine ⟨?_, ?_, fun env2 => retryLoop_attempts_le cfg env2 url 3 0 st⟩
  · intro h2
    simp [download_file_with_retry, retryLoop, download_file, hex0, hex1, hex2, h0, h1, h2,
      List.append_assoc]
  · intro h2
    simp [download_file_with_retry, retryLoop, download_file, hex0, hex1, hex2, h0, h1, h2,
      List.append_assoc]

def c2EnvOk : Nat → AttemptWorld := fun n =>
  if n < 2 then ⟨false, .excep⟩ else ⟨false, .resp "text/css"⟩

def c2EnvFail : Nat → AttemptWorld := fun _ => ⟨false, .excep⟩

def c2Url : String := "http://example.com/s.css"

/-- Witness for C2: a fetch of `s.css` failing twice then succeeding,
and one failing on all three attempts. -/
theorem c2_retry_behaviour_witness :
    download_file_with_retry exCfg c2EnvOk c2Url {} =
      (true, { ({} : CrawlState) with
        downloaded_urls := insertNew c2Url [],
        download_stats := bump (get_asset_type c2Url) [],
        trace := ([] : List Event) ++ [.fetchAttempt c2Url 0, .backoff c2Url 1,
          .fetchAttempt c2Url 1, .backoff c2Url 2, .fetchAttempt c2Url 2] }) ∧
    download_file_with_retry exCfg c2EnvFail c2Url {} =
      (false, { ({} : CrawlState) with
        failed_urls := insertNew c2Url [],
        trace := ([] : List Event) ++ [.fetchAttempt c2Url 0, .backoff c2Url 1,
          .fetchAttempt c2Url 1, .backoff c2Url 2, .fetchAttempt c2Url 2] }) :=
  ⟨(c2_retry_behaviour exCfg c2EnvOk c2Url "text/css" {} rfl rfl rfl rfl rfl).1 rfl,
   (c2_retry_behaviour exCfg c2EnvFail c2Url "text/css" {} rfl rfl rfl rfl rfl).2.1 rfl⟩

/-! ### Claim C3 -/

/-- When a unit passes the skip checks, the worker's resulting state is
exactly the state `download_file_with_retry` leaves (after the alias
bookkeeping); the post-fetch branches only compute new frontier
entries. -/
theorem download_worker_state (cfg : Config) (env : String → Nat → AttemptWorld)
    (canFetch : String → Bool) (extractO : String → List String) (url : String) (depth : Nat)
    (st : CrawlState) (h1 : st.downloaded_urls.contains url = false)
    (h2 : ¬ depth > cfg.max_depth) (h3 : canFetch url = true) :
    (download_worker cfg env canFetch extractO (url, depth) st).1 =
      (download_file_with_retry cfg (env url) url
        { st with url_aliases := aliasInsert url (url_to_filepath cfg url) st.url_aliases }).2 := by
  unfold download_worker
  have hd2 : decide (depth > cfg.max_depth) = false := decide_eq_false h2
  simp only [h1, hd2, h3, Bool.or_self, Bool.false_or, Bool.not_true, if_false, ite_false,
    Bool.false_eq_true, Bool.not_false, if_true, ite_true]
  split
  · split
    · rfl
    · split
      · rfl
      · rfl
  · rfl

def c3Root : String := "http://example.com"

def c3B : String := "http://example.com/b.html"

def c3U : String := "http://example.com/u.html"

/-- Every fetch of `u.html` raises; every other fetch responds with
HTML. -/
def c3Env : String → Nat → AttemptWorld := fun u _ =>
  if u = c3U then ⟨false, .excep⟩ else ⟨false, .resp "text/html"⟩

/-- The root page links to `b.html` and `u.html`; `b.html` links to
`u.html` again. -/
def c3Extract : String → List String := fun u =>
  if u = c3Root then [c3B, c3U] else if u = c3B then [c3U] else []

/-- A full sequential run of the crawl from the seed. -/
def c3Run : CrawlState :=
  download_sequential exCfg c3Env (fun _ => true) c3Extract 10 [(c3Root, 0)] {}

/-- Claim C3 counterexample: in this run `u.html` exhausts its 3
attempts and is recorded in `failed_urls` while processing the root's
discovery, yet when `b.html` later rediscovers and re-enqueues it the
worker fetches it again — the trace holds 6 underlying attempts for
`u.html`, where the claim allows at most the 3 of the first unit. -/
theorem c3_failed_url_fetched_again :
    attemptCount c3Run.trace c3U = 6 ∧ c3U ∈ c3Run.failed_urls := by
  constructor
  · rfl
  · decide

/-- Claim C3 amended: once retries are exhausted the URL is recorded in
`failed_urls` and that dequeued unit goes no further, but the failed set
is not consulted by deduplication (`download_worker` skips only on
`downloaded_urls` membership and depth): a recorded-failed URL that is
re-enqueued and dequeued again is fetched again — the worker performs at
least one fresh underlying attempt on it. -/
theorem c3_failed_set_not_deduplicating (cfg : Config) (env : String → Nat → AttemptWorld)
    (canFetch : String → Bool) (extractO : String → List String) (url : String) (depth : Nat)
    (st : CrawlState) (hdl : st.downloaded_urls.contains url = false)
    (hdep : ¬ depth > cfg.max_depth) (hcan : canFetch url = true)
    (_hfail : url ∈ st.failed_urls) :
    attemptCount st.trace url + 1 ≤
      attemptCount (download_worker cfg env canFetch extractO (url, depth) st).1.trace url := by
  rw [download_worker_state cfg env canFetch extractO url depth st hdl hdep hcan]
  unfold download_file_with_retry
  exact retryLoop_attempts_ge cfg (env url) url 3 0
    { st with url_aliases := aliasInsert url (url_to_filepath cfg url) st.url_aliases } (by omega)

/-- Witness for the amended C3 statement: a worker dequeues a URL that
is already recorded as failed and attempts it again. -/
theorem c3_failed_set_not_deduplicating_witness :
    attemptCount ([] : List Event) "http://example.com/w.css" + 1 ≤
      attemptCount (download_worker exCfg (fun _ _ => ⟨false, .excep⟩) (fun _ => true)
        (fun _ => []) ("http://example.com/w.css", 0)
        { failed_urls := ["http://example.com/w.css"] }).1.trace "http://example.com/w.css" :=
  c3_failed_set_not_deduplicating exCfg (fun _ _ => ⟨false, .excep⟩) (fun _ => true)
    (fun _ => []) "http://example.com/w.css" 0 { failed_urls := ["http://example.com/w.css"] }
    rfl (by decide) rfl (by decide)

/-! ### Claim C9 -/

def c9Css : String := "body \x7b background: url(http://other.com/a.png); \x7d"

def c9Out : String := "body \x7b background: url(\x22http://other.com/a.png\x22); \x7d"

/-- A stand-in HTML primitive; the CSS path under test never calls it. -/
def c9Prim : SoupPrim := ⟨fun _ => [], fun _ => ""⟩

/-- Claim C9 counterexample: a stylesheet whose only reference is
out of scope — so the rewriter rewrites nothing — is still not returned
byte-for-byte: the matched `url()` token is re-emitted in canonical
double-quoted form, so the output differs from the input. -/
theorem c9_rewrite_requotes_external_token :
    (extract_css_urls c9Css "http://example.com/index.html").all
      (fun u => !is_internal_url exCfg u) = true ∧
    convert_links_advanced c9Prim exCfg c9Css "http://example.com/index.html" "css" = c9Out ∧
    c9Out ≠ c9Css := by
  exact ⟨by decide, by decide, by decide⟩

/-- The attribute names of the conversion table for a tag. -/
def rewritableAttrs (tag : String) : List String :=
  match convertSelectors.find? (fun p => p.1 = tag) with
  | some p => p.2
  | none => []

/-- The parts of an element the rewriter may never touch: its tag, the
attributes outside the conversion table and `style`, and the string
content of non-`style` elements. -/
def frameView (e : Element) : String × List (String × String) × Option String :=
  (e.tag,
   e.attrs.filter (fun kv => !(kv.1 = "style" || (rewritableAttrs e.tag).contains kv.1)),
   if e.tag = "style" then none else e.text)

/-- Overwriting a rewritable attribute does not change the frame. -/
theorem frame_filter_map_set (t a v : String)
    (ha : (a = "style" || (rewritableAttrs t).contains a) = true) :
    ∀ attrs : List (String × String),
      (attrs.map (fun kv => if kv.1 = a then (a, v) else kv)).filter
          (fun kv => !(kv.1 = "style" || (rewritableAttrs t).contains kv.1)) =
        attrs.filter (fun kv => !(kv.1 = "style" || (rewritableAttrs t).contains kv.1)) := by
  intro attrs
  induction attrs with
  | nil => rfl
  | cons x xs ih =>
    by_cases h : x.1 = a
    · simp only [List.map_cons, List.filter_cons, h, if_true, ite_true, ha]
      simpa [ha] using ih
    · simp only [List.map_cons, List.filter_cons, h, if_false, ite_false]
      rw [ih]

theorem frameView_setAttr (e : Element) (a v : String)
    (ha : (a = "style" || (rewritableAttrs e.tag).contains a) = true) :
    frameView (setAttr e a v) = frameView e := by
  unfold frameView setAttr
  simp only
  rw [frame_filter_map_set e.tag a v ha e.attrs]

theorem convertAttrStep_tag (cfg : Config) (cu : String) (cfp : List String) (e : Element)
    (a : String) : (convertAttrStep cfg cu cfp e a).tag = e.tag := by
  unfold convertAttrStep
  cases getAttr e a with
  | none => rfl
  | some v =>
    by_cases hv : v ≠ ""
    · by_cases hc : convert_single_url cfg v cu cfp ≠ v <;> simp [hv, hc, setAttr]
    · simp [hv]

theorem frameView_convertAttrStep (cfg : Config) (cu : String) (cfp : List String)
    (e : Element) (a : String)
    (ha : (a = "style" || (rewritableAttrs e.tag).contains a) = true) :
    frameView (convertAttrStep cfg cu cfp e a) = frameView e := by
  unfold convertAttrStep
  cases getAttr e a with
  | none => rfl
  | some v =>
    by_cases hv : v ≠ ""
    · by_cases hc : convert_single_url cfg v cu cfp ≠ v
      · simpa [hv, hc] using frameView_setAttr e a (convert_single_url cfg v cu cfp) ha
      · simp [hv, hc]
    · simp [hv]

theorem frameView_foldl_steps (cfg : Config) (cu : String) (cfp : List String)
    (la : List String) : ∀ e : Element,
      (∀ a ∈ la, (rewritableAttrs e.tag).contains a = true) →
      frameView (la.foldl (convertAttrStep cfg cu cfp) e) = frameView e := by
  induction la with
  | nil => intro e _; rfl
  | cons a as ih =>
    intro e h
    simp only [List.foldl_cons]
    have htag := convertAttrStep_tag cfg cu cfp e a
    have h1 : frameView (convertAttrStep cfg cu cfp e a) = frameView e :=
      frameView_convertAttrStep cfg cu cfp e a
        (by rw [h a (List.mem_cons_self a as)]; simp)
    rw [ih (convertAttrStep cfg cu cfp e a) (fun b hb => by rw [htag]; exact h b (List.mem_cons_of_mem a hb)), h1]

theorem frameView_convertAttrs (cfg : Config) (cu : String) (cfp : List String) (e : Element) :
    frameView (convertAttrs cfg cu cfp e) = frameView e := by
  unfold convertAttrs
  cases hf : convertSelectors.find? (fun p => p.1 = e.tag) with
  | none => rfl
  | some p =>
    apply frameView_foldl_steps
    intro a ha
    unfold rewritableAttrs
    rw [hf]
    exact List.elem_eq_true_of_mem ha

theorem frameView_convertStyleAttr (cfg : Config) (cu : String) (e : Element) :
    frameView (convertStyleAttr cfg cu e) = frameView e := by
  unfold convertStyleAttr
  cases h : getAttr e "style" with
  | none => rfl
  | some s => exact frameView_setAttr e "style" (convert_css_links cfg s cu) (by simp)

theorem frameView_convertStyleTag (cfg : Config) (cu : String) (e : Element) :
    frameView (convertStyleTag cfg cu e) = frameView e := by
  unfold convertStyleTag frameView
  by_cases ht : e.tag = "style"
  · cases e.text with
    | none => simp [ht]
    | some s => by_cases hs : s = "" <;> simp [ht, hs]
  · simp [ht]

/-- Whether the scanner matches anywhere in the input. -/
def hasTok (matcher : List Char → Option (List Char × List Char)) : List Char → Bool
  | [] => false
  | c :: rest => (matcher (c :: rest)).isSome || hasTok matcher rest

/-- Model of `re.sub` over an input without matches copies it verbatim. -/
theorem cssSubF_no_match (matcher : List Char → Option (List Char × List Char))
    (repl : List Char → List Char → List Char) :
    ∀ (n : Nat) (l : List Char), hasTok matcher l = false → l.length ≤ n →
      cssSubF matcher repl n l = l := by
  intro n
  induction n with
  | zero =>
    intro l h hl
    cases l with
    | nil => rfl
    | cons c rest => simp at hl
  | succ m ih =>
    intro l h hl
    cases l with
    | nil => rfl
    | cons c rest =>
      unfold cssSubF
      unfold hasTok at h
      rw [Bool.or_eq_false_iff] at h
      have h1 : matcher (c :: rest) = none := by
        cases hm : matcher (c :: rest) with
        | none => rfl
        | some p => rw [hm] at h; simp at h
      rw [h1]
      have h2 : rest.length ≤ m := by simpa using hl
      rw [ih rest h.2 h2]


/-- Claim C9 amended: the rewriter modifies only reference values — the
tree pass preserves every element's tag, every attribute outside the
conversion table and `style`, and the content of non-`style` elements —
and CSS content in which neither reference pattern matches is returned
unchanged; but a matched CSS `url()`/`@import` token is re-emitted in
canonical double-quoted form even when its out-of-scope URL is left as
is, so byte-for-byte preservation holds only in the absence of such
tokens. -/
theorem c9_rewrite_frame (cfg : Config) (cu : String) (d : Doc) (css : String)
    (hnu : hasTok matchUrlTok css.data = false)
    (hni : hasTok matchImportTok css.data = false) :
    (convertDoc cfg d cu).map frameView = d.map frameView ∧
    convert_css_links cfg css cu = css := by
  constructor
  · unfold convertDoc
    simp only [List.map_map]
    apply List.map_congr_left
    intro e _
    simp only [Function.comp]
    rw [frameView_convertStyleTag, frameView_convertStyleAttr, frameView_convertAttrs]
  · unfold convert_css_links cssSub
    dsimp only
    rw [cssSubF_no_match matchUrlTok _ css.data.length css.data hnu (le_refl _)]
    rw [cssSubF_no_match matchImportTok _ css.data.length css.data hni (le_refl _)]

/-- Witness for the amended C9 statement: a document with an untouched
attribute and a stylesheet without reference tokens. -/
theorem c9_rewrite_frame_witness :
    (convertDoc exCfg [⟨"p", [("class", "wide")], none⟩] "http://example.com/").map frameView =
      ([⟨"p", [("class", "wide")], none⟩] : Doc).map frameView ∧
    convert_css_links exCfg "body color: red;" "http://example.com/" = "body color: red;" :=
  c9_rewrite_frame exCfg "http://example.com/" [⟨"p", [("class", "wide")], none⟩]
    "body color: red;" (by decide) (by decide)

end WD
